import Mathlib

/-!
Shallow embedding of the flight-collision-detection core
(conflict_visualization.py): Waypoint, DroneTrajectory, Conflict and
DeconflictionService, together with theorems settling the frozen claims
about trajectory schedule resolution, position interpolation and the
sampling-based pairwise conflict search.

Real-valued quantities (coordinates, times in seconds, distances) are
modelled as real numbers; Python datetime values are modelled as seconds
on the real line, and timedelta values as real durations.  A Python-level
exception raised during construction is modelled as an Option that is
none.
-/

noncomputable section

/-- Waypoint: a 3D point with an optional timestamp.  The constructor
stores z = 0 when no z is given, so every stored waypoint carries an
explicit z coordinate. -/
structure Waypoint where
  x : ℝ
  y : ℝ
  z : ℝ
  time : Option ℝ

instance : Inhabited Waypoint := ⟨⟨0, 0, 0, none⟩⟩

/-- Euclidean distance between two waypoints (both always carry z in the
model, matching the constructor which defaults z to 0). -/
def Waypoint.distance_to (self other : Waypoint) : ℝ :=
  Real.sqrt ((self.x - other.x) ^ 2 + (self.y - other.y) ^ 2 +
    (self.z - other.z) ^ 2)

/-- DroneTrajectory: vehicle id, ordered waypoints, mission start and
(resolved) end time, and the per-waypoint schedule computed once at
construction. -/
structure DroneTrajectory where
  drone_id : String
  waypoints : List Waypoint
  start_time : ℝ
  end_time : Option ℝ
  waypoint_times : List ℝ

/-- Resolution of the end time in DroneTrajectory.__init__: when end_time
is omitted and the last waypoint has a timestamp, that timestamp is used;
indexing waypoints[-1] on an empty list raises, modelled by the outer
none. -/
def resolveEndTime (waypoints : List Waypoint) (end_time : Option ℝ) :
    Option (Option ℝ) :=
  match end_time with
  | some e => some (some e)
  | none =>
    match waypoints.getLast? with
    | none => none
    | some wl =>
      match wl.time with
      | some tl => some (some tl)
      | none => some none

/-- Consecutive inter-waypoint segment lengths, as computed by the loop
over range(len(waypoints) - 1) in _calculate_waypoint_times. -/
def segmentDists : List Waypoint → List ℝ
  | a :: b :: rest => a.distance_to b :: segmentDists (b :: rest)
  | _ => []

/-- The accumulation loop of _calculate_waypoint_times: walks the segment
lengths keeping the elapsed proportional time, appending
start_time + elapsed after each segment.  A segment contributes
(segment / total_distance) * total_duration when total_distance > 0 and 0
otherwise. -/
def buildTimes (start_time total_distance total_duration : ℝ) :
    ℝ → List ℝ → List ℝ
  | _, [] => []
  | elapsed, seg :: rest =>
    (start_time + (elapsed + (if total_distance > 0 then
        (seg / total_distance) * total_duration else 0))) ::
      buildTimes start_time total_distance total_duration
        (elapsed + (if total_distance > 0 then
          (seg / total_distance) * total_duration else 0)) rest

/-- _calculate_waypoint_times: if every waypoint has a timestamp the
schedule is exactly those timestamps; otherwise times are distributed
proportionally to path distance over the mission duration.  The result is
none when the proportional branch needs an end time that resolved to
None (Python would raise computing total_duration). -/
def calculateWaypointTimes (waypoints : List Waypoint) (start_time : ℝ)
    (end_time : Option ℝ) : Option (List ℝ) :=
  if waypoints.all (fun wp => wp.time.isSome) then
    some (waypoints.map (fun wp => wp.time.getD 0))
  else
    match end_time with
    | none => none
    | some e =>
      some (start_time :: buildTimes start_time (segmentDists waypoints).sum
        (e - start_time) 0 (segmentDists waypoints))

/-- DroneTrajectory.__init__: resolve the end time, then compute the
schedule; none models a raised exception. -/
def mkTrajectory (drone_id : String) (waypoints : List Waypoint)
    (start_time : ℝ) (end_time : Option ℝ) : Option DroneTrajectory :=
  match resolveEndTime waypoints end_time with
  | none => none
  | some e =>
    match calculateWaypointTimes waypoints start_time e with
    | none => none
    | some ts => some ⟨drone_id, waypoints, start_time, e, ts⟩

/-- The segment-search loop of get_position_at_time: walk the waypoint
and schedule lists in parallel, returning the linear interpolation over
the first interval [t1, t2] with t1 <= query <= t2 (factor 0 when
t2 = t1), and none when no interval brackets the query. -/
def interpSegment (query_time : ℝ) :
    List Waypoint → List ℝ → Option Waypoint
  | wp1 :: wp2 :: wps, t1 :: t2 :: ts =>
    if t1 ≤ query_time ∧ query_time ≤ t2 then
      some ⟨wp1.x + (if t2 ≠ t1 then (query_time - t1) / (t2 - t1) else 0) *
              (wp2.x - wp1.x),
            wp1.y + (if t2 ≠ t1 then (query_time - t1) / (t2 - t1) else 0) *
              (wp2.y - wp1.y),
            wp1.z + (if t2 ≠ t1 then (query_time - t1) / (t2 - t1) else 0) *
              (wp2.z - wp1.z),
            some query_time⟩
    else interpSegment query_time (wp2 :: wps) (t2 :: ts)
  | _, _ => none

/-- DroneTrajectory.get_position_at_time: none outside
[waypoint_times[0], waypoint_times[-1]], otherwise the first bracketing
interval's interpolation. -/
def get_position_at_time (t : DroneTrajectory) (query_time : ℝ) :
    Option Waypoint :=
  if query_time < t.waypoint_times.headD 0 ∨
      t.waypoint_times.getLastD 0 < query_time then none
  else interpSegment query_time t.waypoints t.waypoint_times

/-- Linear interpolation over a bracketing interval, written after the
claim text: factor (query_time - t1) / (t2 - t1), and the interval's
first waypoint's position when t1 = t2.  Used to characterise the value
returned by get_position_at_time. -/
def specLerp (wp1 wp2 : Waypoint) (t1 t2 query_time : ℝ) : Waypoint :=
  if t2 ≠ t1 then
    ⟨wp1.x + ((query_time - t1) / (t2 - t1)) * (wp2.x - wp1.x),
     wp1.y + ((query_time - t1) / (t2 - t1)) * (wp2.y - wp1.y),
     wp1.z + ((query_time - t1) / (t2 - t1)) * (wp2.z - wp1.z),
     some query_time⟩
  else ⟨wp1.x, wp1.y, wp1.z, some query_time⟩

/-- Conflict: immutable record of one violating sample. -/
structure Conflict where
  drone1_id : String
  drone2_id : String
  location : Waypoint
  time : ℝ
  distance : ℝ

/-- DeconflictionService: safety buffer, sampling time step and the
registered trajectories in registration order. -/
structure DeconflictionService where
  safety_buffer : ℝ
  time_step : ℝ
  registered_trajectories : List DroneTrajectory

/-- register_trajectory appends to the registered collection. -/
def register_trajectory (service : DeconflictionService)
    (trajectory : DroneTrajectory) : DeconflictionService :=
  { service with registered_trajectories :=
      service.registered_trajectories ++ [trajectory] }

/-- Body of one iteration of the sampling loop in _find_conflicts: both
interpolated positions must exist, and a Conflict carrying the midpoint
location, the sample time and the measured distance is emitted exactly
when that distance is below the safety buffer. -/
def checkPairAt (trajectory1 trajectory2 : DroneTrajectory)
    (safety_buffer : ℝ) (current_time : ℝ) : Option Conflict :=
  match get_position_at_time trajectory1 current_time,
        get_position_at_time trajectory2 current_time with
  | some pos1, some pos2 =>
    if pos1.distance_to pos2 < safety_buffer then
      some ⟨trajectory1.drone_id, trajectory2.drone_id,
            ⟨(pos1.x + pos2.x) / 2, (pos1.y + pos2.y) / 2,
             (pos1.z + pos2.z) / 2, some current_time⟩,
            current_time, pos1.distance_to pos2⟩
    else none
  | _, _ => none

/-- The sample instants visited by the while loop of _find_conflicts:
current, current + step, ... while current <= end.  The step <= 0 guard
marks the inputs on which the Python loop would never terminate; every
theorem about the loop either holds trivially there or assumes a positive
step. -/
def sampleTimes (time_step : ℝ) (current_time end_time : ℝ) : List ℝ :=
  if h : end_time < current_time ∨ time_step ≤ 0 then []
  else current_time :: sampleTimes time_step (current_time + time_step) end_time
termination_by (⌊(end_time - current_time) / time_step⌋ + 1).toNat
decreasing_by
  push_neg at h
  obtain ⟨h1, h2⟩ := h
  have hx : (end_time - (current_time + time_step)) / time_step =
      (end_time - current_time) / time_step - 1 := by
    field_simp
    ring
  have hnn : (0 : ℝ) ≤ (end_time - current_time) / time_step :=
    div_nonneg (by linarith) (le_of_lt h2)
  have hfl : (0 : ℤ) ≤ ⌊(end_time - current_time) / time_step⌋ :=
    Int.floor_nonneg.mpr hnn
  rw [hx, Int.floor_sub_one]
  omega

/-- The while loop of _find_conflicts, accumulating the emitted conflict
records in sample order. -/
def conflictLoop (trajectory1 trajectory2 : DroneTrajectory)
    (safety_buffer time_step : ℝ) (current_time end_time : ℝ) :
    List Conflict :=
  if h : end_time < current_time ∨ time_step ≤ 0 then []
  else (checkPairAt trajectory1 trajectory2 safety_buffer
          current_time).toList ++
    conflictLoop trajectory1 trajectory2 safety_buffer time_step
      (current_time + time_step) end_time
termination_by (⌊(end_time - current_time) / time_step⌋ + 1).toNat
decreasing_by
  push_neg at h
  obtain ⟨h1, h2⟩ := h
  have hx : (end_time - (current_time + time_step)) / time_step =
      (end_time - current_time) / time_step - 1 := by
    field_simp
    ring
  have hnn : (0 : ℝ) ≤ (end_time - current_time) / time_step :=
    div_nonneg (by linarith) (le_of_lt h2)
  have hfl : (0 : ℤ) ≤ ⌊(end_time - current_time) / time_step⌋ :=
    Int.floor_nonneg.mpr hnn
  rw [hx, Int.floor_sub_one]
  omega

/-- _find_conflicts: overlap window from the schedule endpoints, empty
when the windows do not overlap, otherwise the sampling loop. -/
def find_conflicts (safety_buffer time_step : ℝ)
    (trajectory1 trajectory2 : DroneTrajectory) : List Conflict :=
  if max (trajectory1.waypoint_times.headD 0)
        (trajectory2.waypoint_times.headD 0) >
      min (trajectory1.waypoint_times.getLastD 0)
        (trajectory2.waypoint_times.getLastD 0) then []
  else conflictLoop trajectory1 trajectory2 safety_buffer time_step
    (max (trajectory1.waypoint_times.headD 0)
      (trajectory2.waypoint_times.headD 0))
    (min (trajectory1.waypoint_times.getLastD 0)
      (trajectory2.waypoint_times.getLastD 0))

/-- The registry walk of check_mission_safety: trajectories sharing the
mission's vehicle id are skipped, the others contribute their pairwise
conflicts in registration order. -/
def gatherConflicts (safety_buffer time_step : ℝ)
    (mission : DroneTrajectory) : List DroneTrajectory → List Conflict
  | [] => []
  | other :: rest =>
    if other.drone_id = mission.drone_id then
      gatherConflicts safety_buffer time_step mission rest
    else find_conflicts safety_buffer time_step mission other ++
      gatherConflicts safety_buffer time_step mission rest

/-- check_mission_safety: aggregated conflicts plus the status string,
"clear" exactly when no conflict was found. -/
def check_mission_safety (service : DeconflictionService)
    (mission_trajectory : DroneTrajectory) : String × List Conflict :=
  (if (gatherConflicts service.safety_buffer service.time_step
        mission_trajectory service.registered_trajectories).isEmpty then
     "clear" else "conflict detected",
   gatherConflicts service.safety_buffer service.time_step
     mission_trajectory service.registered_trajectories)

end

/-- Swapping the two vehicle-id fields of a conflict record, used to
state the symmetry property of the pairwise search. -/
def swapConflict (c : Conflict) : Conflict :=
  ⟨c.drone2_id, c.drone1_id, c.location, c.time, c.distance⟩

/-! ### Basic unfolding lemmas for the sampling loop -/

lemma sampleTimes_unfold (time_step current_time end_time : ℝ) :
    sampleTimes time_step current_time end_time =
      if end_time < current_time ∨ time_step ≤ 0 then []
      else current_time ::
        sampleTimes time_step (current_time + time_step) end_time := by
  rw [sampleTimes]
  exact dite_eq_ite

lemma conflictLoop_unfold (t1 t2 : DroneTrajectory)
    (safety_buffer time_step current_time end_time : ℝ) :
    conflictLoop t1 t2 safety_buffer time_step current_time end_time =
      if end_time < current_time ∨ time_step ≤ 0 then []
      else (checkPairAt t1 t2 safety_buffer current_time).toList ++
        conflictLoop t1 t2 safety_buffer time_step
          (current_time + time_step) end_time := by
  rw [conflictLoop]
  exact dite_eq_ite

/-- The conflict loop is the filterMap of the per-sample body over the
visited sample instants. -/
lemma conflictLoop_eq_filterMap (t1 t2 : DroneTrajectory)
    (safety_buffer time_step current_time end_time : ℝ) :
    conflictLoop t1 t2 safety_buffer time_step current_time end_time =
      (sampleTimes time_step current_time end_time).filterMap
        (checkPairAt t1 t2 safety_buffer) := by
  rw [conflictLoop_unfold, sampleTimes_unfold]
  by_cases h : end_time < current_time ∨ time_step ≤ 0
  · simp [h]
  · rw [if_neg h, if_neg h,
      conflictLoop_eq_filterMap t1 t2 safety_buffer time_step
        (current_time + time_step) end_time]
    cases hc : checkPairAt t1 t2 safety_buffer current_time <;>
      simp [List.filterMap_cons, hc]
termination_by (⌊(end_time - current_time) / time_step⌋ + 1).toNat
decreasing_by
  push_neg at h
  obtain ⟨h1, h2⟩ := h
  have hx : (end_time - (current_time + time_step)) / time_step =
      (end_time - current_time) / time_step - 1 := by
    field_simp
    ring
  have hfl : (0 : ℤ) ≤ ⌊(end_time - current_time) / time_step⌋ :=
    Int.floor_nonneg.mpr (div_nonneg (by linarith) (le_of_lt h2))
  rw [hx, Int.floor_sub_one]
  omega

/-! ### check_mission_safety structure -/

lemma gatherConflicts_eq_flatten (safety_buffer time_step : ℝ)
    (mission : DroneTrajectory) (l : List DroneTrajectory) :
    gatherConflicts safety_buffer time_step mission l =
      ((l.filter (fun o => o.drone_id != mission.drone_id)).map
        (find_conflicts safety_buffer time_step mission)).flatten := by
  induction l with
  | nil => simp [gatherConflicts]
  | cons o rest ih =>
    by_cases h : o.drone_id = mission.drone_id <;>
      simp [gatherConflicts, h, ih, List.filter_cons]

lemma gatherConflicts_nil_of_same_id (safety_buffer time_step : ℝ)
    (mission : DroneTrajectory) (l : List DroneTrajectory)
    (h : ∀ tr ∈ l, tr.drone_id = mission.drone_id) :
    gatherConflicts safety_buffer time_step mission l = [] := by
  induction l with
  | nil => simp [gatherConflicts]
  | cons o rest ih =>
    rw [gatherConflicts, if_pos (h o (by simp))]
    exact ih (fun tr htr => h tr (by simp [htr]))

/-- C1: check_mission_safety skips every registered trajectory sharing
the mission's vehicle id, aggregates the per-pair conflict lists in
registration order, and reports "clear" exactly when that aggregate is
empty (otherwise "conflict detected"); in particular a registry whose
every entry shares the mission's id yields "clear". -/
theorem claim_C1_check_mission_safety (service : DeconflictionService)
    (mission : DroneTrajectory) :
    (check_mission_safety service mission).2 =
      ((service.registered_trajectories.filter
          (fun o => o.drone_id != mission.drone_id)).map
        (find_conflicts service.safety_buffer service.time_step
          mission)).flatten ∧
    ((check_mission_safety service mission).1 = "clear" ↔
      (check_mission_safety service mission).2 = []) ∧
    ((check_mission_safety service mission).2 ≠ [] →
      (check_mission_safety service mission).1 = "conflict detected") ∧
    ((∀ tr ∈ service.registered_trajectories,
        tr.drone_id = mission.drone_id) →
      (check_mission_safety service mission).1 = "clear") := by
  refine ⟨gatherConflicts_eq_flatten _ _ _ _, ?_, ?_, ?_⟩
  · unfold check_mission_safety
    rcases hg : gatherConflicts service.safety_buffer service.time_step
      mission service.registered_trajectories with _ | ⟨c, cs⟩ <;>
      simp [hg]
  · intro hne
    unfold check_mission_safety at hne ⊢
    rcases hg : gatherConflicts service.safety_buffer service.time_step
      mission service.registered_trajectories with _ | ⟨c, cs⟩ <;>
      simp [hg] at hne ⊢
  · intro hall
    unfold check_mission_safety
    rw [gatherConflicts_nil_of_same_id _ _ _ _ hall]
    simp

/-- Witness for C1: a mission checked against a registry containing only
a trajectory with the mission's own vehicle id yields "clear". -/
theorem claim_C1_witness :
    (check_mission_safety
      ⟨10, 1, [⟨"primary", [⟨0, 0, 0, some 0⟩, ⟨6, 8, 0, some 10⟩],
        0, some 10, [0, 10]⟩]⟩
      ⟨"primary", [⟨0, 0, 0, some 0⟩, ⟨6, 8, 0, some 10⟩],
        0, some 10, [0, 10]⟩).1 = "clear" :=
  (claim_C1_check_mission_safety _ _).2.2.2 (by intro tr htr; simp at htr; rw [htr])

/-- C3: find_conflicts uses the overlap window formed from the schedule
endpoints and returns the empty list whenever the window start exceeds
the window end, so temporally disjoint trajectories yield no conflicts
regardless of spatial proximity. -/
theorem claim_C3_temporal_disjointness (safety_buffer time_step : ℝ)
    (t1 t2 : DroneTrajectory)
    (h1 : t1.waypoint_times ≠ []) (h2 : t2.waypoint_times ≠ [])
    (hgt : max (t1.waypoint_times.headD 0) (t2.waypoint_times.headD 0) >
      min (t1.waypoint_times.getLastD 0) (t2.waypoint_times.getLastD 0)) :
    find_conflicts safety_buffer time_step t1 t2 = [] := by
  unfold find_conflicts
  rw [if_pos hgt]

/-- Witness for C3: two spatially identical trajectories with disjoint
time windows ([0,10] and [20,30]) produce no conflicts. -/
theorem claim_C3_witness :
    find_conflicts 100 1
      ⟨"A", [⟨0, 0, 0, some 0⟩, ⟨1, 0, 0, some 10⟩], 0, some 10, [0, 10]⟩
      ⟨"B", [⟨0, 0, 0, some 20⟩, ⟨1, 0, 0, some 30⟩], 20, some 30,
        [20, 30]⟩ = [] :=
  claim_C3_temporal_disjointness 100 1 _ _ (by simp) (by simp) (by norm_num)

/-! ### Construction: when does DroneTrajectory.__init__ fail? -/

lemma mem_of_getLast?_eq {l : List Waypoint} {a : Waypoint}
    (h : l.getLast? = some a) : a ∈ l := by
  obtain ⟨hne, rfl⟩ :=
    List.mem_getLast?_eq_getLast (Option.mem_def.mpr h)
  exact List.getLast_mem hne

/-- Construction fails (an exception propagates out of __init__) exactly
when the end time is omitted and the last waypoint carries no timestamp —
including the empty-waypoint-list case, where waypoints[-1] itself
raises. -/
lemma mkTrajectory_eq_none_iff (drone_id : String)
    (waypoints : List Waypoint) (start_time : ℝ) (end_time : Option ℝ) :
    mkTrajectory drone_id waypoints start_time end_time = none ↔
      end_time = none ∧ (waypoints.getLast?.bind Waypoint.time) = none := by
  cases end_time with
  | some e =>
    simp only [mkTrajectory, resolveEndTime, calculateWaypointTimes]
    constructor
    · intro h
      by_cases hall : waypoints.all (fun wp => wp.time.isSome) <;>
        simp [hall] at h
    · rintro ⟨h, -⟩
      exact absurd h (by simp)
  | none =>
    cases hl : waypoints.getLast? with
    | none => simp [mkTrajectory, resolveEndTime, hl]
    | some wl =>
      cases ht : wl.time with
      | some tl =>
        simp only [mkTrajectory, resolveEndTime, hl, ht,
          calculateWaypointTimes, Option.bind]
        constructor
        · intro h
          by_cases hall : waypoints.all (fun wp => wp.time.isSome) <;>
            simp [hall] at h
        · rintro ⟨-, h⟩
          simp [ht] at h
      | none =>
        have hall : ¬ waypoints.all (fun wp => wp.time.isSome) := by
          intro hall
          have := List.all_eq_true.mp hall wl (mem_of_getLast?_eq hl)
          simp [ht] at this
        simp [mkTrajectory, resolveEndTime, hl, ht,
          calculateWaypointTimes, hall]

/-- C7 (amended): the only construction-time failure is an unresolvable
end time (end time omitted while the last waypoint has no timestamp, in
particular an omitted end time with an empty waypoint list); a
single-waypoint list or an end time before the start time is accepted
and produces a trajectory object. -/
theorem claim_C7_construction_failure (drone_id : String)
    (waypoints : List Waypoint) (start_time : ℝ) (end_time : Option ℝ) :
    (mkTrajectory drone_id waypoints start_time end_time = none ↔
      end_time = none ∧ (waypoints.getLast?.bind Waypoint.time) = none) ∧
    (mkTrajectory drone_id [] start_time none = none) ∧
    (∀ e : ℝ, ∃ t, mkTrajectory drone_id waypoints start_time (some e) =
      some t) := by
  refine ⟨mkTrajectory_eq_none_iff _ _ _ _, rfl, fun e => ?_⟩
  rcases h : mkTrajectory drone_id waypoints start_time (some e) with _ | t
  · rw [mkTrajectory_eq_none_iff] at h
    exact absurd h.1 (by simp)
  · exact ⟨t, rfl⟩

/-- Counterexample for C7 as stated: a one-waypoint trajectory and a
trajectory whose end time precedes its start time are both constructed
without any failure. -/
theorem claim_C7_counterexample :
    mkTrajectory "solo" [⟨0, 0, 0, some 5⟩] 0 (some 10) =
      some ⟨"solo", [⟨0, 0, 0, some 5⟩], 0, some 10, [5]⟩ ∧
    mkTrajectory "back" [⟨0, 0, 0, some 3⟩, ⟨1, 0, 0, some 4⟩] 10
        (some 0) =
      some ⟨"back", [⟨0, 0, 0, some 3⟩, ⟨1, 0, 0, some 4⟩], 10, some 0,
        [3, 4]⟩ :=
  ⟨rfl, rfl⟩

/-! ### Schedule resolution: lemmas about the proportional branch -/

lemma buildTimes_length (start_time total_distance total_duration : ℝ)
    (segs : List ℝ) : ∀ elapsed : ℝ,
    (buildTimes start_time total_distance total_duration elapsed
      segs).length = segs.length := by
  induction segs with
  | nil => intro e; rfl
  | cons seg rest ih => intro e; simp [buildTimes, ih]

lemma buildTimes_getD (start_time total_distance total_duration : ℝ)
    (segs : List ℝ) : ∀ (elapsed : ℝ) (i : ℕ), i < segs.length →
    (buildTimes start_time total_distance total_duration elapsed
      segs).getD i 0 =
      start_time + elapsed + ((segs.take (i + 1)).map
        (fun seg => if total_distance > 0 then
          (seg / total_distance) * total_duration else 0)).sum := by
  induction segs with
  | nil => intro e i hi; simp at hi
  | cons seg rest ih =>
    intro e i hi
    cases i with
    | zero =>
      simp only [buildTimes, List.getD_cons_zero, List.take_succ_cons,
        List.take_zero, List.map_cons, List.map_nil, List.sum_cons,
        List.sum_nil]
      ring
    | succ i =>
      rw [buildTimes, List.getD_cons_succ,
        ih (e + (if total_distance > 0 then
          (seg / total_distance) * total_duration else 0)) i
          (by simpa using hi),
        List.take_succ_cons, List.map_cons, List.sum_cons]
      ring

lemma list_sum_div_mul (l : List ℝ) (total dur : ℝ) :
    (l.map (fun seg => (seg / total) * dur)).sum = (l.sum / total) * dur := by
  induction l with
  | nil => simp
  | cons a l ih =>
    simp only [List.map_cons, List.sum_cons, ih]
    ring

lemma segmentDists_nonneg (wps : List Waypoint) :
    ∀ d ∈ segmentDists wps, 0 ≤ d := by
  induction wps with
  | nil => simp [segmentDists]
  | cons a rest ih =>
    cases rest with
    | nil => simp [segmentDists]
    | cons b rest2 =>
      intro d hd
      rw [segmentDists] at hd
      rcases List.mem_cons.mp hd with h | h
      · rw [h]; exact Real.sqrt_nonneg _
      · exact ih d h

lemma segmentDists_length (wps : List Waypoint) (h : wps ≠ []) :
    (segmentDists wps).length + 1 = wps.length := by
  induction wps with
  | nil => simp at h
  | cons a rest ih =>
    cases rest with
    | nil => rfl
    | cons b rest2 =>
      rw [segmentDists]
      simpa using ih (by simp)

lemma getLastD_eq_getD (l : List ℝ) (d : ℝ) :
    l.getLastD d = l.getD (l.length - 1) d := by
  rw [List.getLastD_eq_getLast?, List.getLast?_eq_getElem?]
  simp [List.getD, List.get?_eq_getElem?]

/-- Destructuring a successful construction. -/
lemma mkTrajectory_some_elim {drone_id : String} {wps : List Waypoint}
    {start_time : ℝ} {end_time : Option ℝ} {t : DroneTrajectory}
    (h : mkTrajectory drone_id wps start_time end_time = some t) :
    t.drone_id = drone_id ∧ t.waypoints = wps ∧
    t.start_time = start_time ∧
    resolveEndTime wps end_time = some t.end_time ∧
    calculateWaypointTimes wps start_time t.end_time =
      some t.waypoint_times := by
  unfold mkTrajectory at h
  split at h
  · exact absurd h (by simp)
  · rename_i e hr
    split at h
    · exact absurd h (by simp)
    · rename_i ts hc
      injection h with h
      subst h
      exact ⟨rfl, rfl, rfl, hr, hc⟩

/-- Closed form for the proportional schedule: entry i is the start time
plus the fraction of total distance covered so far times the duration,
and just the start time when the total distance is not positive. -/
lemma propTimes_getD (wps : List Waypoint) (start_time e : ℝ) (i : ℕ)
    (hi : i < (segmentDists wps).length + 1) :
    (start_time :: buildTimes start_time (segmentDists wps).sum
      (e - start_time) 0 (segmentDists wps)).getD i 0 =
      if (segmentDists wps).sum > 0 then
        start_time + (((segmentDists wps).take i).sum /
          (segmentDists wps).sum) * (e - start_time)
      else start_time := by
  cases i with
  | zero =>
    simp only [List.getD_cons_zero, List.take_zero, List.sum_nil]
    by_cases htot : (segmentDists wps).sum > 0 <;> simp [htot]
  | succ i =>
    rw [List.getD_cons_succ,
      buildTimes_getD _ _ _ _ 0 i (by omega)]
    by_cases htot : (segmentDists wps).sum > 0
    · rw [if_pos htot]
      have hmap : ((segmentDists wps).take (i + 1)).map
          (fun seg => if (segmentDists wps).sum > 0 then
            (seg / (segmentDists wps).sum) * (e - start_time) else 0) =
          ((segmentDists wps).take (i + 1)).map
          (fun seg => (seg / (segmentDists wps).sum) * (e - start_time)) :=
        List.map_congr_left (fun a _ => by rw [if_pos htot])
      rw [hmap, list_sum_div_mul]
      ring
    · rw [if_neg htot]
      simp [htot]

/-- C4: for every successful construction, an all-timestamped waypoint
list gives exactly those timestamps as the schedule; otherwise each
schedule entry is start time plus (cumulative distance / total distance)
times the duration, collapsing to the start time when the total path
distance is zero. -/
theorem claim_C4_schedule_resolution (drone_id : String)
    (wps : List Waypoint) (start_time : ℝ) (end_time : Option ℝ)
    (t : DroneTrajectory)
    (h : mkTrajectory drone_id wps start_time end_time = some t) :
    ((wps.all fun wp => wp.time.isSome) = true →
      t.waypoint_times = wps.map (fun wp => wp.time.getD 0)) ∧
    ((wps.all fun wp => wp.time.isSome) = false →
      ∃ e : ℝ, t.end_time = some e ∧
        ∀ i, i < t.waypoint_times.length →
          t.waypoint_times.getD i 0 =
            if (segmentDists wps).sum > 0 then
              start_time + (((segmentDists wps).take i).sum /
                (segmentDists wps).sum) * (e - start_time)
            else start_time) := by
  obtain ⟨-, -, -, -, hc⟩ := mkTrajectory_some_elim h
  constructor
  · intro hall
    rw [calculateWaypointTimes.eq_def, if_pos hall] at hc
    exact (Option.some_inj.mp hc).symm
  · intro hall
    rw [calculateWaypointTimes.eq_def, if_neg (by simp [hall])] at hc
    split at hc
    · exact absurd hc (by simp)
    · rename_i e he
      refine ⟨e, he, ?_⟩
      have hts : t.waypoint_times = start_time ::
          buildTimes start_time (segmentDists wps).sum (e - start_time) 0
            (segmentDists wps) := (Option.some_inj.mp hc).symm
      intro i hi
      rw [hts] at hi ⊢
      refine propTimes_getD wps start_time e i ?_
      simpa [buildTimes_length] using hi

/-- Witness for C4: a fully timestamped two-waypoint trajectory resolves
to exactly those timestamps. -/
theorem claim_C4_witness :
    (([⟨0, 0, 0, some 2⟩, ⟨1, 0, 0, some 7⟩] : List Waypoint).all
      (fun wp => wp.time.isSome)) = true ∧
    (⟨"w", [⟨0, 0, 0, some 2⟩, ⟨1, 0, 0, some 7⟩], 0, some 7,
        [2, 7]⟩ : DroneTrajectory).waypoint_times =
      ([⟨0, 0, 0, some 2⟩, ⟨1, 0, 0, some 7⟩] : List Waypoint).map
        (fun wp => wp.time.getD 0) :=
  ⟨rfl, (claim_C4_schedule_resolution "w"
    [⟨0, 0, 0, some 2⟩, ⟨1, 0, 0, some 7⟩] 0 (some 7)
    ⟨"w", [⟨0, 0, 0, some 2⟩, ⟨1, 0, 0, some 7⟩], 0, some 7, [2, 7]⟩
    rfl).1 rfl⟩

/-! ### Schedule invariants (C6) -/

/-- C6 (amended): the schedule always has one entry per waypoint; when
the schedule is redistributed proportionally (not every waypoint carries
a timestamp) and the resolved end time is not before the start time, the
schedule is monotonically non-decreasing with first entry equal to the
start time, and when additionally the total path distance is positive the
last entry equals the end time. -/
lemma mkTrajectory_times_length {drone_id : String}
    {wps : List Waypoint} {start_time : ℝ} {end_time : Option ℝ}
    {t : DroneTrajectory}
    (h : mkTrajectory drone_id wps start_time end_time = some t) :
    t.waypoint_times.length = t.waypoints.length := by
  obtain ⟨-, hwps, -, -, hc⟩ := mkTrajectory_some_elim h
  by_cases hall : (wps.all fun wp => wp.time.isSome) = true
  · rw [calculateWaypointTimes.eq_def, if_pos hall] at hc
    rw [hwps, ← Option.some_inj.mp hc, List.length_map]
  · have hall' : (wps.all fun wp => wp.time.isSome) = false := by
      simpa using hall
    have hne : wps ≠ [] := by
      intro hnil
      rw [hnil] at hall'
      simp at hall'
    rw [calculateWaypointTimes.eq_def, if_neg (by simp [hall'])] at hc
    split at hc
    · exact absurd hc (by simp)
    · rename_i e he
      rw [hwps, ← Option.some_inj.mp hc]
      simp only [List.length_cons, buildTimes_length]
      exact segmentDists_length wps hne

theorem claim_C6_schedule_invariants (drone_id : String)
    (wps : List Waypoint) (start_time : ℝ) (end_time : Option ℝ)
    (t : DroneTrajectory)
    (h : mkTrajectory drone_id wps start_time end_time = some t) :
    t.waypoint_times.length = t.waypoints.length ∧
    ((wps.all fun wp => wp.time.isSome) = false →
      ∀ e : ℝ, t.end_time = some e →
        t.waypoint_times.headD 0 = start_time ∧
        (start_time ≤ e →
          ∀ i, i + 1 < t.waypoint_times.length →
            t.waypoint_times.getD i 0 ≤ t.waypoint_times.getD (i + 1) 0) ∧
        (0 < (segmentDists wps).sum →
          t.waypoint_times.getLastD 0 = e)) := by
  obtain ⟨-, hwps, -, -, hc⟩ := mkTrajectory_some_elim h
  have hprop : (wps.all fun wp => wp.time.isSome) = false →
      ∀ e : ℝ, t.end_time = some e →
      t.waypoint_times = start_time ::
        buildTimes start_time (segmentDists wps).sum (e - start_time) 0
          (segmentDists wps) := by
    intro hall e he
    have hc' := hc
    rw [calculateWaypointTimes.eq_def, if_neg (by simp [hall]), he] at hc'
    exact (Option.some_inj.mp hc').symm
  constructor
  · exact mkTrajectory_times_length h
  · intro hall e he
    have hts := hprop hall e he
    have hlen : t.waypoint_times.length =
        (segmentDists wps).length + 1 := by
      rw [hts]
      simp [buildTimes_length]
    refine ⟨by rw [hts]; rfl, ?_, ?_⟩
    · intro hse i hi
      rw [hlen] at hi
      rw [hts, propTimes_getD wps start_time e i (by omega),
        propTimes_getD wps start_time e (i + 1) (by omega)]
      by_cases htot : (segmentDists wps).sum > 0
      · rw [if_pos htot, if_pos htot]
        have hilen : i < (segmentDists wps).length := by omega
        have hstep : ((segmentDists wps).take (i + 1)).sum =
            ((segmentDists wps).take i).sum + (segmentDists wps)[i] :=
          List.sum_take_succ _ i hilen
        have hnn : 0 ≤ (segmentDists wps)[i] :=
          segmentDists_nonneg wps _ (List.getElem_mem _)
        have hcum : ((segmentDists wps).take i).sum ≤
            ((segmentDists wps).take (i + 1)).sum := by
          rw [hstep]; linarith
        have hfrac : ((segmentDists wps).take i).sum /
              (segmentDists wps).sum ≤
            ((segmentDists wps).take (i + 1)).sum /
              (segmentDists wps).sum :=
          (div_le_div_iff_of_pos_right htot).mpr hcum
        have hdur : (0 : ℝ) ≤ e - start_time := by linarith
        have := mul_le_mul_of_nonneg_right hfrac hdur
        linarith
      · rw [if_neg htot, if_neg htot]
    · intro htot
      rw [hts, getLastD_eq_getD]
      rw [show (start_time :: buildTimes start_time
            (segmentDists wps).sum (e - start_time) 0
            (segmentDists wps)).length - 1 =
          (segmentDists wps).length from by simp [buildTimes_length]]
      rw [propTimes_getD wps start_time e (segmentDists wps).length
        (by omega)]
      rw [if_pos htot, List.take_length, div_self (ne_of_gt htot)]
      ring

/-- Counterexample for C6 as stated: a trajectory constructed from
waypoints carrying explicit timestamps [10, 0] has a schedule that is not
monotonically non-decreasing and whose first entry differs from the
start time. -/
theorem claim_C6_counterexample :
    mkTrajectory "d1" [⟨0, 0, 0, some 10⟩, ⟨1, 0, 0, some 0⟩] 0
        (some 20) =
      some ⟨"d1", [⟨0, 0, 0, some 10⟩, ⟨1, 0, 0, some 0⟩], 0, some 20,
        [10, 0]⟩ ∧
    ¬ ((⟨"d1", [⟨0, 0, 0, some 10⟩, ⟨1, 0, 0, some 0⟩], 0, some 20,
        [10, 0]⟩ : DroneTrajectory).waypoint_times.getD 0 0 ≤
      (⟨"d1", [⟨0, 0, 0, some 10⟩, ⟨1, 0, 0, some 0⟩], 0, some 20,
        [10, 0]⟩ : DroneTrajectory).waypoint_times.getD 1 0) ∧
    (⟨"d1", [⟨0, 0, 0, some 10⟩, ⟨1, 0, 0, some 0⟩], 0, some 20,
        [10, 0]⟩ : DroneTrajectory).waypoint_times.headD 0 ≠
      (⟨"d1", [⟨0, 0, 0, some 10⟩, ⟨1, 0, 0, some 0⟩], 0, some 20,
        [10, 0]⟩ : DroneTrajectory).start_time := by
  refine ⟨rfl, ?_, ?_⟩ <;>
    simp only [List.getD_cons_zero, List.getD_cons_succ,
      List.headD_cons] <;> norm_num

lemma segmentDists_pair (a b : Waypoint) :
    segmentDists [a, b] = [a.distance_to b] := rfl

lemma distance_unit_example :
    (⟨0, 0, 0, none⟩ : Waypoint).distance_to ⟨1, 0, 0, none⟩ = 1 := by
  simp only [Waypoint.distance_to]
  norm_num

/-- A concrete proportional-schedule construction: two untimed waypoints
one unit apart over the window [0, 10] resolve to the schedule [0, 10]. -/
lemma mkTrajectory_prop_example :
    mkTrajectory "m" [⟨0, 0, 0, none⟩, ⟨1, 0, 0, none⟩] 0 (some 10) =
      some ⟨"m", [⟨0, 0, 0, none⟩, ⟨1, 0, 0, none⟩], 0, some 10,
        [0, 10]⟩ := by
  unfold mkTrajectory resolveEndTime calculateWaypointTimes
  rw [segmentDists_pair, distance_unit_example]
  simp only [List.all_cons, List.all_nil, Option.isSome_none,
    Bool.false_and, Bool.and_self, Bool.and_false, List.sum_cons,
    List.sum_nil, buildTimes]
  norm_num

/-- Witness for C6 (amended): the proportional construction above has a
two-entry schedule with first entry 0, adjacent entries ordered, and last
entry equal to the end time 10. -/
theorem claim_C6_witness :
    (⟨"m", [⟨0, 0, 0, none⟩, ⟨1, 0, 0, none⟩], 0, some 10,
        [0, 10]⟩ : DroneTrajectory).waypoint_times.length =
      (⟨"m", [⟨0, 0, 0, none⟩, ⟨1, 0, 0, none⟩], 0, some 10,
        [0, 10]⟩ : DroneTrajectory).waypoints.length ∧
    (⟨"m", [⟨0, 0, 0, none⟩, ⟨1, 0, 0, none⟩], 0, some 10,
        [0, 10]⟩ : DroneTrajectory).waypoint_times.headD 0 = 0 ∧
    (⟨"m", [⟨0, 0, 0, none⟩, ⟨1, 0, 0, none⟩], 0, some 10,
        [0, 10]⟩ : DroneTrajectory).waypoint_times.getD 0 0 ≤
      (⟨"m", [⟨0, 0, 0, none⟩, ⟨1, 0, 0, none⟩], 0, some 10,
        [0, 10]⟩ : DroneTrajectory).waypoint_times.getD 1 0 ∧
    (⟨"m", [⟨0, 0, 0, none⟩, ⟨1, 0, 0, none⟩], 0, some 10,
        [0, 10]⟩ : DroneTrajectory).waypoint_times.getLastD 0 = 10 := by
  have hmain := claim_C6_schedule_invariants "m"
    [⟨0, 0, 0, none⟩, ⟨1, 0, 0, none⟩] 0 (some 10)
    ⟨"m", [⟨0, 0, 0, none⟩, ⟨1, 0, 0, none⟩], 0, some 10, [0, 10]⟩
    mkTrajectory_prop_example
  have hrest := hmain.2 rfl 10 rfl
  refine ⟨hmain.1, hrest.1, ?_, ?_⟩
  · exact hrest.2.1 (by norm_num) 0 (by norm_num)
  · refine hrest.2.2 ?_
    rw [segmentDists_pair, distance_unit_example]
    norm_num

/-! ### Interpolation lemmas (C5, C9) -/

/-- When the query lies between the first and last schedule entries and
there are at least two waypoints, the segment search always succeeds:
every such query admits a bracketing interval, monotone schedule or
not. -/
lemma interpSegment_isSome (query_time : ℝ) (ts : List ℝ) :
    ∀ wps : List Waypoint, wps.length = ts.length → 2 ≤ ts.length →
      ts.headD 0 ≤ query_time → query_time ≤ ts.getLastD 0 →
      (interpSegment query_time wps ts).isSome := by
  induction ts with
  | nil => intro wps _ h2 _ _; simp at h2
  | cons t1 ts ih =>
    intro wps hlen h2 hhead hlast
    cases ts with
    | nil => simp at h2
    | cons t2 ts' =>
      cases wps with
      | nil => simp at hlen
      | cons w1 wps1 =>
        cases wps1 with
        | nil => simp at hlen
        | cons w2 wps2 =>
          rw [interpSegment]
          by_cases hbr : t1 ≤ query_time ∧ query_time ≤ t2
          · rw [if_pos hbr]; rfl
          · rw [if_neg hbr]
            cases ts' with
            | nil =>
              exact absurd ⟨by simpa using hhead, by simpa using hlast⟩ hbr
            | cons t3 ts'' =>
              refine ih (w2 :: wps2) (by simpa using hlen) (by simp) ?_ ?_
              · have ht1 : t1 ≤ query_time := by simpa using hhead
                have h2q : t2 < query_time :=
                  lt_of_not_le (fun hq => hbr ⟨ht1, hq⟩)
                simpa using le_of_lt h2q
              · simpa using hlast

/-- Any value produced by the segment search comes from the first
bracketing interval in ascending order, with the interpolation factor of
the claim text. -/
lemma interpSegment_some_elim (query_time : ℝ) (ts : List ℝ) :
    ∀ (wps : List Waypoint) (p : Waypoint),
      interpSegment query_time wps ts = some p →
      ∃ i, i + 1 < ts.length ∧ i + 1 < wps.length ∧
        (ts.getD i 0 ≤ query_time ∧ query_time ≤ ts.getD (i + 1) 0) ∧
        (∀ j, j < i →
          ¬(ts.getD j 0 ≤ query_time ∧ query_time ≤ ts.getD (j + 1) 0)) ∧
        p = specLerp (wps.getD i default) (wps.getD (i + 1) default)
          (ts.getD i 0) (ts.getD (i + 1) 0) query_time := by
  induction ts with
  | nil =>
    intro wps p h
    cases wps with
    | nil => simp [interpSegment] at h
    | cons w1 wps1 =>
      cases wps1 <;> simp [interpSegment] at h
  | cons t1 ts ih =>
    intro wps p h
    cases ts with
    | nil =>
      cases wps with
      | nil => simp [interpSegment] at h
      | cons w1 wps1 => cases wps1 <;> simp [interpSegment] at h
    | cons t2 ts' =>
      cases wps with
      | nil => simp [interpSegment] at h
      | cons w1 wps1 =>
        cases wps1 with
        | nil => simp [interpSegment] at h
        | cons w2 wps2 =>
          rw [interpSegment] at h
          by_cases hbr : t1 ≤ query_time ∧ query_time ≤ t2
          · rw [if_pos hbr] at h
            refine ⟨0, by simp, by simp, by simpa using hbr,
              by intro j hj; omega, ?_⟩
            have hp := (Option.some_inj.mp h).symm
            rw [hp]
            unfold specLerp
            by_cases hne : t2 ≠ t1
            · rw [if_pos hne]
              simp [hne]
            · rw [if_neg hne]
              simp [hne]
          · rw [if_neg hbr] at h
            obtain ⟨i, hlt, hlw, hbrk, hmin, hp⟩ :=
              ih (w2 :: wps2) p h
            refine ⟨i + 1, by simpa using hlt, by simpa using hlw,
              by simpa using hbrk, ?_, by simpa using hp⟩
            intro j hj
            cases j with
            | zero => simpa using hbr
            | succ j =>
              have := hmin j (by omega)
              simpa using this

/-- C5 (amended): for every constructed trajectory with at least two
waypoints, get_position_at_time returns none exactly when the query lies
outside the closed interval between the first and last schedule entries,
and any returned position comes from the first bracketing schedule
interval via linear interpolation with factor
(query - t1) / (t2 - t1) (the interval's first waypoint when t1 = t2). -/
theorem claim_C5_position_lookup (drone_id : String)
    (wps : List Waypoint) (start_time : ℝ) (end_time : Option ℝ)
    (t : DroneTrajectory) (q : ℝ)
    (h : mkTrajectory drone_id wps start_time end_time = some t)
    (hlen2 : 2 ≤ wps.length) :
    (get_position_at_time t q = none ↔
      (q < t.waypoint_times.headD 0 ∨ t.waypoint_times.getLastD 0 < q)) ∧
    (∀ p, get_position_at_time t q = some p →
      ∃ i, i + 1 < t.waypoint_times.length ∧
        (t.waypoint_times.getD i 0 ≤ q ∧
          q ≤ t.waypoint_times.getD (i + 1) 0) ∧
        (∀ j, j < i → ¬(t.waypoint_times.getD j 0 ≤ q ∧
          q ≤ t.waypoint_times.getD (j + 1) 0)) ∧
        p = specLerp (t.waypoints.getD i default)
          (t.waypoints.getD (i + 1) default)
          (t.waypoint_times.getD i 0)
          (t.waypoint_times.getD (i + 1) 0) q) := by
  have hwlen : t.waypoints.length = wps.length :=
    by rw [(mkTrajectory_some_elim h).2.1]
  have hteq : t.waypoint_times.length = t.waypoints.length :=
    mkTrajectory_times_length h
  constructor
  · constructor
    · intro hnone
      by_cases ho : q < t.waypoint_times.headD 0 ∨
          t.waypoint_times.getLastD 0 < q
      · exact ho
      · exfalso
        unfold get_position_at_time at hnone
        rw [if_neg ho] at hnone
        push_neg at ho
        have hs := interpSegment_isSome q t.waypoint_times t.waypoints
          (by omega) (by omega) ho.1 ho.2
        rw [hnone] at hs
        simp at hs
    · intro ho
      unfold get_position_at_time
      rw [if_pos ho]
  · intro p hp
    unfold get_position_at_time at hp
    by_cases ho : q < t.waypoint_times.headD 0 ∨
        t.waypoint_times.getLastD 0 < q
    · rw [if_pos ho] at hp
      exact absurd hp (by simp)
    · rw [if_neg ho] at hp
      obtain ⟨i, hlt, -, hbrk, hmin, hpe⟩ :=
        interpSegment_some_elim q t.waypoint_times t.waypoints p hp
      exact ⟨i, hlt, hbrk, hmin, hpe⟩

/-- Counterexample for C5 as stated: a constructible single-waypoint
trajectory has schedule [5], and the query time 5 lies inside the closed
interval [5, 5], yet get_position_at_time returns none (the segment loop
has no interval to inspect). -/
theorem claim_C5_counterexample :
    mkTrajectory "solo" [⟨0, 0, 0, some 5⟩] 0 (some 10) =
      some ⟨"solo", [⟨0, 0, 0, some 5⟩], 0, some 10, [5]⟩ ∧
    ¬ ((5 : ℝ) < (⟨"solo", [⟨0, 0, 0, some 5⟩], 0, some 10,
        [5]⟩ : DroneTrajectory).waypoint_times.headD 0 ∨
      (⟨"solo", [⟨0, 0, 0, some 5⟩], 0, some 10,
        [5]⟩ : DroneTrajectory).waypoint_times.getLastD 0 < (5 : ℝ)) ∧
    get_position_at_time
      ⟨"solo", [⟨0, 0, 0, some 5⟩], 0, some 10, [5]⟩ 5 = none := by
  refine ⟨rfl, ?_, ?_⟩
  · simp
  · unfold get_position_at_time
    rw [if_neg (by simp)]
    rfl

/-- Witness for C5 (amended): on a two-waypoint trajectory with schedule
[2, 7], the query 10 lies beyond the last schedule entry and the lookup
returns none. -/
theorem claim_C5_witness :
    get_position_at_time
      ⟨"w", [⟨0, 0, 0, some 2⟩, ⟨1, 0, 0, some 7⟩], 0, some 7,
        [2, 7]⟩ 10 = none :=
  (claim_C5_position_lookup "w" [⟨0, 0, 0, some 2⟩, ⟨1, 0, 0, some 7⟩]
    0 (some 7)
    ⟨"w", [⟨0, 0, 0, some 2⟩, ⟨1, 0, 0, some 7⟩], 0, some 7, [2, 7]⟩
    10 rfl (by norm_num)).1.mpr (by right; norm_num [List.getLastD])

/-! ### Boundary interpolation (C9) -/

lemma chain_lt_getLastD (a b : ℝ) (l : List ℝ)
    (h : List.Chain' (· < ·) (a :: b :: l)) :
    a < (a :: b :: l).getLastD 0 := by
  induction l generalizing a b with
  | nil =>
    have := (List.chain'_cons.mp h).1
    simpa using this
  | cons c l ih =>
    have h1 := (List.chain'_cons.mp h).1
    have h2 := ih b c (List.chain'_cons.mp h).2
    calc a < b := h1
    _ < (b :: c :: l).getLastD 0 := h2
    _ = (a :: b :: c :: l).getLastD 0 := by simp [List.getLastD_eq_getLast?]

lemma chain_head_le_getLastD (l : List ℝ) (h : List.Chain' (· < ·) l)
    (hne : l ≠ []) : l.headD 0 ≤ l.getLastD 0 := by
  cases l with
  | nil => simp at hne
  | cons a l =>
    cases l with
    | nil => simp
    | cons b l => exact le_of_lt (by simpa using chain_lt_getLastD a b l h)

/-- With a strictly increasing schedule, the segment search at the first
schedule entry returns the first waypoint's coordinates. -/
lemma interpSegment_head (w1 w2 : Waypoint) (wps : List Waypoint)
    (t1 t2 : ℝ) (ts : List ℝ) (h12 : t1 < t2) :
    interpSegment t1 (w1 :: w2 :: wps) (t1 :: t2 :: ts) =
      some ⟨w1.x, w1.y, w1.z, some t1⟩ := by
  rw [interpSegment, if_pos ⟨le_refl t1, le_of_lt h12⟩]
  rw [if_pos (ne_of_gt h12)]
  simp

/-- With a strictly increasing schedule, the segment search at the last
schedule entry returns the last waypoint's coordinates. -/
lemma interpSegment_last (ts : List ℝ) :
    ∀ wps : List Waypoint, wps.length = ts.length → 2 ≤ ts.length →
      List.Chain' (· < ·) ts →
      ∃ p, interpSegment (ts.getLastD 0) wps ts = some p ∧
        p.x = (wps.getLastD default).x ∧
        p.y = (wps.getLastD default).y ∧
        p.z = (wps.getLastD default).z := by
  induction ts with
  | nil => intro wps _ h2 _; simp at h2
  | cons t1 ts ih =>
    intro wps hlen h2 hch
    cases ts with
    | nil => simp at h2
    | cons t2 ts' =>
      cases wps with
      | nil => simp at hlen
      | cons w1 wps1 =>
        cases wps1 with
        | nil => simp at hlen
        | cons w2 wps2 =>
          have h12 : t1 < t2 := (List.chain'_cons.mp hch).1
          cases ts' with
          | nil =>
            cases wps2 with
            | nil =>
              rw [show ((t1 :: t2 :: ([] : List ℝ)).getLastD 0) = t2 by
                simp [List.getLastD_eq_getLast?]]
              rw [interpSegment, if_pos ⟨le_of_lt h12, le_refl t2⟩]
              rw [if_pos (ne_of_gt h12)]
              have hne : t2 - t1 ≠ 0 := sub_ne_zero.mpr (ne_of_gt h12)
              refine ⟨_, rfl, ?_, ?_, ?_⟩ <;>
                · simp only [List.getLastD_eq_getLast?]
                  field_simp
                  try ring
            | cons w3 wps3 => simp at hlen
          | cons t3 ts'' =>
            have hgl : ((t1 :: t2 :: t3 :: ts'').getLastD 0) =
                ((t2 :: t3 :: ts'').getLastD 0) := by
              simp [List.getLastD_eq_getLast?]
            have h2lt : t2 < (t2 :: t3 :: ts'').getLastD 0 :=
              chain_lt_getLastD t2 t3 ts'' (List.chain'_cons.mp hch).2
            rw [hgl, interpSegment, if_neg ?hbr]
            case hbr =>
              rintro ⟨-, hq⟩
              exact absurd hq (not_le_of_lt h2lt)
            obtain ⟨p, hp, hx, hy, hz⟩ := ih (w2 :: wps2)
              (by simpa using hlen) (by simp)
              (List.chain'_cons.mp hch).2
            refine ⟨p, hp, ?_, ?_, ?_⟩ <;>
              · first
                | (rw [hx]; simp [List.getLastD_eq_getLast?])
                | (rw [hy]; simp [List.getLastD_eq_getLast?])
                | (rw [hz]; simp [List.getLastD_eq_getLast?])

/-- C9 (amended): for every constructed trajectory with at least two
waypoints whose resolved schedule is strictly increasing,
get_position_at_time at the first schedule entry returns the first
waypoint's coordinates and at the last schedule entry returns the last
waypoint's coordinates. -/
theorem claim_C9_interpolation_boundary (drone_id : String)
    (wps : List Waypoint) (start_time : ℝ) (end_time : Option ℝ)
    (t : DroneTrajectory)
    (h : mkTrajectory drone_id wps start_time end_time = some t)
    (hlen2 : 2 ≤ wps.length)
    (hmono : List.Chain' (· < ·) t.waypoint_times) :
    (∃ p, get_position_at_time t (t.waypoint_times.headD 0) = some p ∧
      p.x = (t.waypoints.headD default).x ∧
      p.y = (t.waypoints.headD default).y ∧
      p.z = (t.waypoints.headD default).z) ∧
    (∃ p, get_position_at_time t (t.waypoint_times.getLastD 0) = some p ∧
      p.x = (t.waypoints.getLastD default).x ∧
      p.y = (t.waypoints.getLastD default).y ∧
      p.z = (t.waypoints.getLastD default).z) := by
  have hwps : t.waypoints = wps := (mkTrajectory_some_elim h).2.1
  have hteq : t.waypoint_times.length = t.waypoints.length :=
    mkTrajectory_times_length h
  have hts2 : 2 ≤ t.waypoint_times.length := by
    rw [hteq, hwps]; exact hlen2
  have hne : t.waypoint_times ≠ [] := by
    intro hx; rw [hx] at hts2; simp at hts2
  have hhl : t.waypoint_times.headD 0 ≤ t.waypoint_times.getLastD 0 :=
    chain_head_le_getLastD _ hmono hne
  obtain ⟨t1, t2, ts, hlt⟩ : ∃ t1 t2 ts,
      t.waypoint_times = t1 :: t2 :: ts := by
    rcases hx : t.waypoint_times with _ | ⟨a, _ | ⟨b, l⟩⟩
    · rw [hx] at hts2; simp at hts2
    · rw [hx] at hts2; simp at hts2
    · exact ⟨a, b, l, rfl⟩
  obtain ⟨w1, w2, ws, hlw⟩ : ∃ w1 w2 ws,
      t.waypoints = w1 :: w2 :: ws := by
    rcases hx : t.waypoints with _ | ⟨a, _ | ⟨b, l⟩⟩
    · rw [hx, List.length_nil] at hteq; omega
    · rw [hx] at hteq; rw [hteq] at hts2; simp at hts2
    · exact ⟨a, b, l, rfl⟩
  have h12 : t1 < t2 := by
    rw [hlt] at hmono
    exact (List.chain'_cons.mp hmono).1
  constructor
  · refine ⟨⟨w1.x, w1.y, w1.z, some t1⟩, ?_, by rw [hlw]; simp,
      by rw [hlw]; simp, by rw [hlw]; simp⟩
    unfold get_position_at_time
    rw [hlt, hlw]
    simp only [List.headD_cons]
    rw [if_neg ?hg]
    case hg =>
      rintro (hx | hx)
      · exact absurd hx (lt_irrefl t1)
      · rw [hlt] at hhl
        simp only [List.headD_cons] at hhl
        exact absurd hx (not_lt_of_le hhl)
    exact interpSegment_head w1 w2 ws t1 t2 ts h12
  · have hchain : List.Chain' (· < ·) (t1 :: t2 :: ts) := by
      rw [hlt] at hmono; exact hmono
    obtain ⟨p, hp, hx, hy, hz⟩ := interpSegment_last (t1 :: t2 :: ts)
      (w1 :: w2 :: ws) (by rw [← hlt, ← hlw]; exact hteq.symm ▸ rfl)
      (by simp) hchain
    refine ⟨p, ?_, by rw [hlw]; exact hx, by rw [hlw]; exact hy,
      by rw [hlw]; exact hz⟩
    unfold get_position_at_time
    rw [hlt, hlw]
    rw [if_neg ?hg2]
    case hg2 =>
      rintro (hx' | hx')
      · rw [hlt] at hhl
        exact absurd hx' (not_lt_of_le hhl)
      · exact absurd hx' (lt_irrefl _)
    exact hp

/-- Counterexample for C9 as stated: with explicit waypoint timestamps
[10, 0] the schedule is not monotone, and querying at the first schedule
entry (10) returns none rather than the first waypoint's position. -/
theorem claim_C9_counterexample :
    mkTrajectory "d2" [⟨0, 0, 0, some 10⟩, ⟨1, 1, 1, some 0⟩] 0
        (some 20) =
      some ⟨"d2", [⟨0, 0, 0, some 10⟩, ⟨1, 1, 1, some 0⟩], 0, some 20,
        [10, 0]⟩ ∧
    (⟨"d2", [⟨0, 0, 0, some 10⟩, ⟨1, 1, 1, some 0⟩], 0, some 20,
      [10, 0]⟩ : DroneTrajectory).waypoint_times.headD 0 = 10 ∧
    get_position_at_time
      ⟨"d2", [⟨0, 0, 0, some 10⟩, ⟨1, 1, 1, some 0⟩], 0, some 20,
        [10, 0]⟩ 10 = none := by
  refine ⟨rfl, rfl, ?_⟩
  unfold get_position_at_time
  rw [if_pos]
  right
  show (([10, 0] : List ℝ).getLastD 0) < 10
  norm_num [List.getLastD_eq_getLast?]

/-- Witness for C9 (amended): a two-waypoint trajectory with strictly
increasing schedule [2, 7] interpolates to its first waypoint at 2 and
its last waypoint at 7. -/
theorem claim_C9_witness :
    (∃ p, get_position_at_time
        ⟨"w9", [⟨0, 0, 0, some 2⟩, ⟨1, 5, 9, some 7⟩], 0, some 7,
          [2, 7]⟩
        ((⟨"w9", [⟨0, 0, 0, some 2⟩, ⟨1, 5, 9, some 7⟩], 0, some 7,
          [2, 7]⟩ : DroneTrajectory).waypoint_times.headD 0) = some p ∧
      p.x = ((⟨"w9", [⟨0, 0, 0, some 2⟩, ⟨1, 5, 9, some 7⟩], 0, some 7,
          [2, 7]⟩ : DroneTrajectory).waypoints.headD default).x ∧
      p.y = ((⟨"w9", [⟨0, 0, 0, some 2⟩, ⟨1, 5, 9, some 7⟩], 0, some 7,
          [2, 7]⟩ : DroneTrajectory).waypoints.headD default).y ∧
      p.z = ((⟨"w9", [⟨0, 0, 0, some 2⟩, ⟨1, 5, 9, some 7⟩], 0, some 7,
          [2, 7]⟩ : DroneTrajectory).waypoints.headD default).z) ∧
    (∃ p, get_position_at_time
        ⟨"w9", [⟨0, 0, 0, some 2⟩, ⟨1, 5, 9, some 7⟩], 0, some 7,
          [2, 7]⟩
        ((⟨"w9", [⟨0, 0, 0, some 2⟩, ⟨1, 5, 9, some 7⟩], 0, some 7,
          [2, 7]⟩ : DroneTrajectory).waypoint_times.getLastD 0) =
          some p ∧
      p.x = ((⟨"w9", [⟨0, 0, 0, some 2⟩, ⟨1, 5, 9, some 7⟩], 0, some 7,
          [2, 7]⟩ : DroneTrajectory).waypoints.getLastD default).x ∧
      p.y = ((⟨"w9", [⟨0, 0, 0, some 2⟩, ⟨1, 5, 9, some 7⟩], 0, some 7,
          [2, 7]⟩ : DroneTrajectory).waypoints.getLastD default).y ∧
      p.z = ((⟨"w9", [⟨0, 0, 0, some 2⟩, ⟨1, 5, 9, some 7⟩], 0, some 7,
          [2, 7]⟩ : DroneTrajectory).waypoints.getLastD default).z) :=
  claim_C9_interpolation_boundary "w9"
    [⟨0, 0, 0, some 2⟩, ⟨1, 5, 9, some 7⟩] 0 (some 7)
    ⟨"w9", [⟨0, 0, 0, some 2⟩, ⟨1, 5, 9, some 7⟩], 0, some 7, [2, 7]⟩
    rfl (by norm_num)
    (by show List.Chain' (· < ·) ([2, 7] : List ℝ)
        norm_num [List.chain'_cons, List.chain'_singleton])

/-! ### Per-sample conflict emission (C2) -/

lemma get_position_example1 :
    get_position_at_time
      ⟨"A2", [⟨0, 0, 0, some 0⟩, ⟨0, 0, 0, some 10⟩], 0, some 10,
        [0, 10]⟩ 0 = some ⟨0, 0, 0, some 0⟩ := by
  unfold get_position_at_time
  rw [if_neg (by norm_num [List.getLastD_eq_getLast?])]
  rw [interpSegment, if_pos (by norm_num)]
  norm_num

lemma get_position_example2 :
    get_position_at_time
      ⟨"B2", [⟨0, 0, 0, some 0⟩, ⟨0, 0, 0, some 10⟩], 0, some 10,
        [0, 10]⟩ 0 = some ⟨0, 0, 0, some 0⟩ := by
  unfold get_position_at_time
  rw [if_neg (by norm_num [List.getLastD_eq_getLast?])]
  rw [interpSegment, if_pos (by norm_num)]
  norm_num

/-- C2: the pairwise search is the filterMap of the per-sample body over
the visited sample instants, and at any instant where both interpolated
positions exist a record is emitted exactly when their distance is below
the safety buffer, carrying the two vehicle ids, the coordinate-wise
midpoint as location (stamped with the instant), the instant, and the
measured distance. -/
theorem claim_C2_conflict_emission
    (trajectory1 trajectory2 : DroneTrajectory)
    (safety_buffer time_step q : ℝ) (pos1 pos2 : Waypoint)
    (h1 : get_position_at_time trajectory1 q = some pos1)
    (h2 : get_position_at_time trajectory2 q = some pos2) :
    find_conflicts safety_buffer time_step trajectory1 trajectory2 =
      (sampleTimes time_step
        (max (trajectory1.waypoint_times.headD 0)
          (trajectory2.waypoint_times.headD 0))
        (min (trajectory1.waypoint_times.getLastD 0)
          (trajectory2.waypoint_times.getLastD 0))).filterMap
        (checkPairAt trajectory1 trajectory2 safety_buffer) ∧
    checkPairAt trajectory1 trajectory2 safety_buffer q =
      (if pos1.distance_to pos2 < safety_buffer then
        some ⟨trajectory1.drone_id, trajectory2.drone_id,
          ⟨(pos1.x + pos2.x) / 2, (pos1.y + pos2.y) / 2,
           (pos1.z + pos2.z) / 2, some q⟩, q, pos1.distance_to pos2⟩
      else none) := by
  constructor
  · unfold find_conflicts
    by_cases hw : max (trajectory1.waypoint_times.headD 0)
        (trajectory2.waypoint_times.headD 0) >
        min (trajectory1.waypoint_times.getLastD 0)
          (trajectory2.waypoint_times.getLastD 0)
    · rw [if_pos hw, sampleTimes_unfold, if_pos (Or.inl hw)]
      simp
    · rw [if_neg hw, conflictLoop_eq_filterMap]
  · unfold checkPairAt
    rw [h1, h2]

/-- Witness for C2: two trajectories sitting at the same point at sample
instant 0; the emission equation instantiates with both interpolated
positions equal to the origin. -/
theorem claim_C2_witness :
    checkPairAt
      ⟨"A2", [⟨0, 0, 0, some 0⟩, ⟨0, 0, 0, some 10⟩], 0, some 10,
        [0, 10]⟩
      ⟨"B2", [⟨0, 0, 0, some 0⟩, ⟨0, 0, 0, some 10⟩], 0, some 10,
        [0, 10]⟩ 50 0 =
      (if (⟨0, 0, 0, some 0⟩ : Waypoint).distance_to
          ⟨0, 0, 0, some 0⟩ < 50 then
        some ⟨"A2", "B2",
          ⟨((0 : ℝ) + 0) / 2, ((0 : ℝ) + 0) / 2, ((0 : ℝ) + 0) / 2,
            some 0⟩, 0,
          (⟨0, 0, 0, some 0⟩ : Waypoint).distance_to ⟨0, 0, 0, some 0⟩⟩
      else none) :=
  (claim_C2_conflict_emission
    ⟨"A2", [⟨0, 0, 0, some 0⟩, ⟨0, 0, 0, some 10⟩], 0, some 10, [0, 10]⟩
    ⟨"B2", [⟨0, 0, 0, some 0⟩, ⟨0, 0, 0, some 10⟩], 0, some 10, [0, 10]⟩
    50 1 0 ⟨0, 0, 0, some 0⟩ ⟨0, 0, 0, some 0⟩
    get_position_example1 get_position_example2).2

/-! ### Symmetry of the pairwise search (C8) -/

lemma distance_to_comm (a b : Waypoint) :
    a.distance_to b = b.distance_to a := by
  unfold Waypoint.distance_to
  congr 1
  ring

lemma checkPairAt_symm (t1 t2 : DroneTrajectory) (safety_buffer q : ℝ) :
    checkPairAt t2 t1 safety_buffer q =
      (checkPairAt t1 t2 safety_buffer q).map swapConflict := by
  unfold checkPairAt
  cases hp1 : get_position_at_time t1 q with
  | none =>
    cases hp2 : get_position_at_time t2 q with
    | none => rfl
    | some pos2 => rfl
  | some pos1 =>
    cases hp2 : get_position_at_time t2 q with
    | none => rfl
    | some pos2 =>
      dsimp only
      rw [distance_to_comm]
      by_cases hlt : pos1.distance_to pos2 < safety_buffer
      · rw [if_pos hlt, if_pos hlt]
        simp only [Option.map_some', swapConflict]
        congr 2 <;> ring
      · rw [if_neg hlt, if_neg hlt]
        rfl

lemma conflictLoop_symm (t1 t2 : DroneTrajectory)
    (safety_buffer time_step current_time end_time : ℝ) :
    conflictLoop t2 t1 safety_buffer time_step current_time end_time =
      (conflictLoop t1 t2 safety_buffer time_step current_time
        end_time).map swapConflict := by
  rw [conflictLoop_eq_filterMap, conflictLoop_eq_filterMap,
    List.map_filterMap]
  exact List.filterMap_congr (fun q _ => checkPairAt_symm t1 t2 safety_buffer q)

/-- C8: the pairwise search is symmetric: swapping the argument order
yields the records with the two vehicle-id fields swapped and the time,
distance and location unchanged; in particular the (time, distance)
sequences coincide. -/
theorem claim_C8_symmetry (safety_buffer time_step : ℝ)
    (A B : DroneTrajectory) :
    find_conflicts safety_buffer time_step B A =
      (find_conflicts safety_buffer time_step A B).map swapConflict ∧
    (find_conflicts safety_buffer time_step B A).map
        (fun c => (c.time, c.distance)) =
      (find_conflicts safety_buffer time_step A B).map
        (fun c => (c.time, c.distance)) ∧
    (find_conflicts safety_buffer time_step B A).map
        (fun c => (c.drone1_id, c.drone2_id)) =
      (find_conflicts safety_buffer time_step A B).map
        (fun c => (c.drone2_id, c.drone1_id)) := by
  have hmain : find_conflicts safety_buffer time_step B A =
      (find_conflicts safety_buffer time_step A B).map swapConflict := by
    unfold find_conflicts
    rw [max_comm (B.waypoint_times.headD 0) (A.waypoint_times.headD 0),
      min_comm (B.waypoint_times.getLastD 0)
        (A.waypoint_times.getLastD 0)]
    by_cases hw : max (A.waypoint_times.headD 0)
        (B.waypoint_times.headD 0) >
        min (A.waypoint_times.getLastD 0) (B.waypoint_times.getLastD 0)
    · rw [if_pos hw, if_pos hw]
      rfl
    · rw [if_neg hw, if_neg hw]
      exact conflictLoop_symm A B safety_buffer time_step _ _
  refine ⟨hmain, ?_, ?_⟩ <;>
    · rw [hmain, List.map_map]
      rfl

/-! ### Structure of the emitted record list (C10) -/

lemma checkPairAt_some_elim (t1 t2 : DroneTrajectory)
    (safety_buffer q : ℝ) (c : Conflict)
    (h : checkPairAt t1 t2 safety_buffer q = some c) :
    c.time = q ∧ c.location.time = some q := by
  unfold checkPairAt at h
  cases hp1 : get_position_at_time t1 q with
  | none => rw [hp1] at h; exact absurd h (by simp)
  | some pos1 =>
    cases hp2 : get_position_at_time t2 q with
    | none => rw [hp1, hp2] at h; exact absurd h (by simp)
    | some pos2 =>
      rw [hp1, hp2] at h
      dsimp only at h
      by_cases hlt : pos1.distance_to pos2 < safety_buffer
      · rw [if_pos hlt] at h
        injection h with h
        subst h
        exact ⟨rfl, rfl⟩
      · rw [if_neg hlt] at h
        exact absurd h (by simp)

lemma conflictLoop_mem (t1 t2 : DroneTrajectory)
    (safety_buffer time_step : ℝ) (hstep : 0 < time_step)
    (current_time end_time : ℝ) (c : Conflict)
    (hc : c ∈ conflictLoop t1 t2 safety_buffer time_step current_time
      end_time) :
    (∃ k : ℕ, c.time = current_time + k * time_step) ∧
      current_time ≤ c.time ∧ c.time ≤ end_time ∧
      c.location.time = some c.time := by
  rw [conflictLoop_unfold] at hc
  by_cases h : end_time < current_time ∨ time_step ≤ 0
  · rw [if_pos h] at hc
    simp at hc
  · rw [if_neg h] at hc
    push_neg at h
    rcases List.mem_append.mp hc with hm | hm
    · cases hcp : checkPairAt t1 t2 safety_buffer current_time with
      | none => rw [hcp] at hm; simp at hm
      | some c' =>
        rw [hcp] at hm
        simp only [Option.toList_some, List.mem_singleton] at hm
        subst hm
        obtain ⟨ht, hl⟩ :=
          checkPairAt_some_elim t1 t2 safety_buffer current_time c hcp
        refine ⟨⟨0, by rw [ht]; push_cast; ring⟩, le_of_eq ht.symm, ?_,
          by rw [hl, ht]⟩
        rw [ht]
        exact h.1
    · obtain ⟨⟨k, hk⟩, hle, hub, hloc⟩ := conflictLoop_mem t1 t2
        safety_buffer time_step hstep (current_time + time_step)
        end_time c hm
      refine ⟨⟨k + 1, by rw [hk]; push_cast; ring⟩, ?_, hub, hloc⟩
      linarith
termination_by (⌊(end_time - current_time) / time_step⌋ + 1).toNat
decreasing_by
  push_neg at h
  obtain ⟨h1, h2⟩ := h
  have hx : (end_time - (current_time + time_step)) / time_step =
      (end_time - current_time) / time_step - 1 := by
    field_simp
    ring
  have hfl : (0 : ℤ) ≤ ⌊(end_time - current_time) / time_step⌋ :=
    Int.floor_nonneg.mpr (div_nonneg (by linarith) (le_of_lt h2))
  rw [hx, Int.floor_sub_one]
  omega

lemma conflictLoop_chain (t1 t2 : DroneTrajectory)
    (safety_buffer time_step : ℝ) (hstep : 0 < time_step)
    (current_time end_time : ℝ) :
    List.Chain' (fun c d => c.time < d.time)
      (conflictLoop t1 t2 safety_buffer time_step current_time
        end_time) := by
  rw [conflictLoop_unfold]
  by_cases h : end_time < current_time ∨ time_step ≤ 0
  · rw [if_pos h]
    simp
  · rw [if_neg h]
    push_neg at h
    have htail := conflictLoop_chain t1 t2 safety_buffer time_step hstep
      (current_time + time_step) end_time
    cases hcp : checkPairAt t1 t2 safety_buffer current_time with
    | none => simpa using htail
    | some c =>
      simp only [Option.toList_some, List.singleton_append]
      refine List.chain'_cons'.mpr ⟨?_, htail⟩
      intro y hy
      have hyl : y ∈ conflictLoop t1 t2 safety_buffer time_step
          (current_time + time_step) end_time :=
        List.mem_of_mem_head? hy
      have hyt := (conflictLoop_mem t1 t2 safety_buffer time_step hstep
        (current_time + time_step) end_time y hyl).2.1
      have hct : c.time = current_time :=
        (checkPairAt_some_elim t1 t2 safety_buffer current_time c hcp).1
      rw [hct]
      linarith
termination_by (⌊(end_time - current_time) / time_step⌋ + 1).toNat
decreasing_by
  push_neg at h
  obtain ⟨h1, h2⟩ := h
  have hx : (end_time - (current_time + time_step)) / time_step =
      (end_time - current_time) / time_step - 1 := by
    field_simp
    ring
  have hfl : (0 : ℤ) ≤ ⌊(end_time - current_time) / time_step⌋ :=
    Int.floor_nonneg.mpr (div_nonneg (by linarith) (le_of_lt h2))
  rw [hx, Int.floor_sub_one]
  omega

/-- C10: with a positive sampling step, every emitted record's time is
window_start + k * step for some natural k, lies inside the overlap
window, the record times are strictly increasing along the returned
list, and each record's location waypoint is stamped with the record's
conflict time. -/
theorem claim_C10_sample_grid (A B : DroneTrajectory)
    (safety_buffer time_step : ℝ) (hstep : 0 < time_step) :
    (∀ c ∈ find_conflicts safety_buffer time_step A B,
      (∃ k : ℕ, c.time =
        max (A.waypoint_times.headD 0) (B.waypoint_times.headD 0) +
          k * time_step) ∧
      max (A.waypoint_times.headD 0) (B.waypoint_times.headD 0) ≤
        c.time ∧
      c.time ≤ min (A.waypoint_times.getLastD 0)
        (B.waypoint_times.getLastD 0) ∧
      c.location.time = some c.time) ∧
    List.Chain' (fun c d => c.time < d.time)
      (find_conflicts safety_buffer time_step A B) := by
  unfold find_conflicts
  by_cases hw : max (A.waypoint_times.headD 0)
      (B.waypoint_times.headD 0) >
      min (A.waypoint_times.getLastD 0) (B.waypoint_times.getLastD 0)
  · rw [if_pos hw]
    exact ⟨by intro c hc; simp at hc, by simp⟩
  · rw [if_neg hw]
    refine ⟨?_, conflictLoop_chain A B safety_buffer time_step hstep _ _⟩
    intro c hc
    exact conflictLoop_mem A B safety_buffer time_step hstep _ _ c hc

/-- Witness for C10: two co-located trajectories over [0, 10] sampled
with step 1. -/
theorem claim_C10_witness :
    (0 : ℝ) < 1 ∧
    ((∀ c ∈ find_conflicts 50 1
        ⟨"A3", [⟨0, 0, 0, some 0⟩, ⟨1, 0, 0, some 10⟩], 0, some 10,
          [0, 10]⟩
        ⟨"B3", [⟨0, 0, 0, some 0⟩, ⟨1, 0, 0, some 10⟩], 0, some 10,
          [0, 10]⟩,
      (∃ k : ℕ, c.time =
        max ((⟨"A3", [⟨0, 0, 0, some 0⟩, ⟨1, 0, 0, some 10⟩], 0,
          some 10, [0, 10]⟩ : DroneTrajectory).waypoint_times.headD 0)
          ((⟨"B3", [⟨0, 0, 0, some 0⟩, ⟨1, 0, 0, some 10⟩], 0, some 10,
            [0, 10]⟩ : DroneTrajectory).waypoint_times.headD 0) +
          k * 1) ∧
      max ((⟨"A3", [⟨0, 0, 0, some 0⟩, ⟨1, 0, 0, some 10⟩], 0, some 10,
          [0, 10]⟩ : DroneTrajectory).waypoint_times.headD 0)
        ((⟨"B3", [⟨0, 0, 0, some 0⟩, ⟨1, 0, 0, some 10⟩], 0, some 10,
          [0, 10]⟩ : DroneTrajectory).waypoint_times.headD 0) ≤
        c.time ∧
      c.time ≤ min ((⟨"A3", [⟨0, 0, 0, some 0⟩, ⟨1, 0, 0, some 10⟩], 0,
          some 10, [0, 10]⟩ : DroneTrajectory).waypoint_times.getLastD 0)
        ((⟨"B3", [⟨0, 0, 0, some 0⟩, ⟨1, 0, 0, some 10⟩], 0, some 10,
          [0, 10]⟩ : DroneTrajectory).waypoint_times.getLastD 0) ∧
      c.location.time = some c.time) ∧
    List.Chain' (fun c d => c.time < d.time)
      (find_conflicts 50 1
        ⟨"A3", [⟨0, 0, 0, some 0⟩, ⟨1, 0, 0, some 10⟩], 0, some 10,
          [0, 10]⟩
        ⟨"B3", [⟨0, 0, 0, some 0⟩, ⟨1, 0, 0, some 10⟩], 0, some 10,
          [0, 10]⟩)) :=
  ⟨by norm_num,
   claim_C10_sample_grid
     ⟨"A3", [⟨0, 0, 0, some 0⟩, ⟨1, 0, 0, some 10⟩], 0, some 10,
       [0, 10]⟩
     ⟨"B3", [⟨0, 0, 0, some 0⟩, ⟨1, 0, 0, some 10⟩], 0, some 10,
       [0, 10]⟩ 50 1 (by norm_num)⟩
